import Mathlib

/-!
Shallow embedding of the delta-based scoring and weight-publication pipeline
of `src/validator/weights.py` (class `WeightsManager` and the module-level
score transform `apply_kurtosis_custom`), together with theorems checking the
natural-language specification against it.

Conventions of the embedding:
* python floats are modelled as real numbers (`ℝ`);
* integer counters of telemetry records are modelled as `Int` (deltas may be
  negative, exactly as in the source, which does not clamp);
* a python value that may be `None` is an `Option`;
* exceptions are modelled by `Except PyErr` / an explicit outcome component,
  with `PyErr.keyError` standing for `KeyError` (the only exception class the
  calculation loop catches) and `PyErr.otherError` for every other exception;
* external collaborators (telemetry storage, metagraph, node manager, chain)
  are state records supplying the values the source reads from them, and the
  side effects the source performs on them are recorded as explicit events.
-/

namespace Subnet42

/-- The epsilon `1e-8` used by the score transform of `weights.py`. -/
noncomputable def eps : ℝ := 1e-8

/-- `np.min` on a (nonempty) array; 0 on the empty array, which the source
never reaches because of its emptiness guard. -/
noncomputable def listMin : List ℝ → ℝ
  | [] => 0
  | [a] => a
  | a :: b :: rest => min a (listMin (b :: rest))

/-- `np.max` on a (nonempty) array; 0 on the empty array. -/
noncomputable def listMax : List ℝ → ℝ
  | [] => 0
  | [a] => a
  | a :: b :: rest => max a (listMax (b :: rest))

/-- The final min-max normalisation step
`y = (y - np.min(y)) / (np.max(y) - np.min(y) + 1e-8)` of `weights.py`. -/
noncomputable def minmaxNormalize (ys : List ℝ) : List ℝ :=
  ys.map (fun y => (y - listMin ys) / (listMax ys - listMin ys + eps))

/-- `np.percentile(x, q)` with numpy's default linear interpolation:
sort ascending, take rank `q/100 * (n-1)` and interpolate between the two
neighbouring order statistics. -/
noncomputable def npPercentile (x : List ℝ) (q : ℝ) : ℝ :=
  let s := x.mergeSort (fun a b => decide (a ≤ b))
  let rank : ℝ := q / 100 * ((x.length : ℝ) - 1)
  let lo : ℤ := ⌊rank⌋
  let w : ℝ := rank - (lo : ℝ)
  let slo := s.getD lo.toNat 0
  let shi := s.getD (lo.toNat + 1) slo
  slo + w * (shi - slo)

/-- `apply_kurtosis_custom` from `weights.py`: centre and scale by population
mean/std, apply the sigmoid with configurable steepness, add the tanh boost,
multiply the entries at or above the `top_percentile`-th percentile of the
original input by `1 + reward_factor`, then min-max normalise to `[0,1]`.
Empty or all-zero input short-circuits to an all-zero output of the same
length. -/
noncomputable def apply_kurtosis_custom (x : List ℝ) (top_percentile : ℝ)
    (reward_factor : ℝ) (steepness : ℝ) (center_sensitivity : ℝ)
    (boost_factor : ℝ) : List ℝ :=
  if x.length = 0 ∨ ∀ v ∈ x, v = 0 then x.map (fun _ => 0)
  else
    let n : ℝ := x.length
    let μ := x.sum / n
    let σ := Real.sqrt ((x.map (fun v => (v - μ) ^ 2)).sum / n)
    let thr := npPercentile x top_percentile
    minmaxNormalize (x.map (fun v =>
      let c := (v - μ) / (σ + eps)
      let b := 1 / (1 + Real.exp (-(steepness * (c - center_sensitivity))))
        + boost_factor * Real.tanh c
      if thr ≤ v then b * (1 + reward_factor) else b))

/-- `apply_kurtosis_custom` at its default parameters
`top_percentile=90, reward_factor=0.4, steepness=2.0, center_sensitivity=0.5,
boost_factor=0.2`, which is how `calculate_weights` invokes it. -/
noncomputable def kurtosisDefault (x : List ℝ) : List ℝ :=
  apply_kurtosis_custom x 90 0.4 2 0.5 0.2

lemma listMin_le {y : ℝ} : ∀ {ys : List ℝ}, y ∈ ys → listMin ys ≤ y
  | [], h => by cases h
  | [a], h => by
    rcases List.mem_singleton.mp h with rfl
    simp [listMin]
  | a :: b :: t, h => by
    rcases List.mem_cons.mp h with rfl | h
    · simp [listMin]
    · exact le_trans (by simp [listMin]) (listMin_le h)

lemma le_listMax {y : ℝ} : ∀ {ys : List ℝ}, y ∈ ys → y ≤ listMax ys
  | [], h => by cases h
  | [a], h => by
    rcases List.mem_singleton.mp h with rfl
    simp [listMax]
  | a :: b :: t, h => by
    rcases List.mem_cons.mp h with rfl | h
    · simp [listMax]
    · exact le_trans (le_listMax h) (by simp [listMax])

lemma eps_pos : (0 : ℝ) < eps := by norm_num [eps]

lemma length_minmaxNormalize (ys : List ℝ) :
    (minmaxNormalize ys).length = ys.length := by
  simp [minmaxNormalize]

lemma minmaxNormalize_mem_unitInterval {ys : List ℝ} {z : ℝ}
    (hz : z ∈ minmaxNormalize ys) : 0 ≤ z ∧ z ≤ 1 := by
  rcases List.mem_map.mp hz with ⟨y, hy, rfl⟩
  have hmin : listMin ys ≤ y := listMin_le hy
  have hmax : y ≤ listMax ys := le_listMax hy
  have hd : 0 < listMax ys - listMin ys + eps := by
    have : (0 : ℝ) ≤ listMax ys - listMin ys := by linarith
    linarith [eps_pos]
  constructor
  · exact div_nonneg (by linarith) (le_of_lt hd)
  · rw [div_le_one hd]
    linarith [eps_pos]

lemma length_apply_kurtosis_custom (x : List ℝ) (a b c d e : ℝ) :
    (apply_kurtosis_custom x a b c d e).length = x.length := by
  rw [apply_kurtosis_custom]
  split
  · simp
  · simp [length_minmaxNormalize]

lemma apply_kurtosis_custom_mem_unitInterval {x : List ℝ} (a b c d e : ℝ)
    {z : ℝ} (hz : z ∈ apply_kurtosis_custom x a b c d e) : 0 ≤ z ∧ z ≤ 1 := by
  rw [apply_kurtosis_custom] at hz
  rcases (by assumption : z ∈ _) with _
  revert hz
  split
  · intro hz
    rcases List.mem_map.mp hz with ⟨_, _, rfl⟩
    norm_num
  · intro hz
    exact minmaxNormalize_mem_unitInterval hz

/-- C7: for every input of length at least 1 the score transform, at its
default parameters, returns a list of the same length (and order, being an
elementwise map) with every element in the closed interval `[0,1]`. -/
theorem C7_transform_range (x : List ℝ) (hx : 0 < x.length) :
    (kurtosisDefault x).length = x.length ∧
      ∀ z ∈ kurtosisDefault x, 0 ≤ z ∧ z ≤ 1 := by
  refine ⟨length_apply_kurtosis_custom x 90 0.4 2 0.5 0.2, ?_⟩
  intro z hz
  exact apply_kurtosis_custom_mem_unitInterval 90 0.4 2 0.5 0.2 hz

/-- Witness for C7 at the concrete input `[0]`. -/
theorem C7_transform_range_witness :
    0 < ([(0 : ℝ)]).length ∧
      ((kurtosisDefault [(0 : ℝ)]).length = ([(0 : ℝ)]).length ∧
        ∀ z ∈ kurtosisDefault [(0 : ℝ)], 0 ≤ z ∧ z ≤ 1) :=
  ⟨by decide, C7_transform_range [(0 : ℝ)] (by decide)⟩

/-- The `NodeData` record of `interfaces/types.py` as used by `weights.py`:
a telemetry snapshot, and equally the per-node delta record derived from two
snapshots.  Counters are integers (deltas may be negative, the source does not
clamp), `uid` may be `None`. -/
structure NodeData where
  hotkey : String
  uid : Option Nat
  worker_id : String
  timestamp : Int
  boot_time : Int
  last_operation_time : Int
  current_time : Int
  twitter_auth_errors : Int
  twitter_errors : Int
  twitter_ratelimit_errors : Int
  twitter_returned_other : Int
  twitter_returned_profiles : Int
  twitter_returned_tweets : Int
  twitter_scrapes : Int
  web_errors : Int
  web_success : Int
deriving DecidableEq

/-- The state the Delta Engine (`_get_delta_node_data`) reads: the telemetry
storage (`get_all_hotkeys_with_telemetry` / `get_telemetry_by_hotkey`) and the
metagraph node list, flattened to the `(node_id, hotkey)` pairs the source
builds as `all_hotkeys`. -/
structure StoreState where
  hotkeysWithTelemetry : List String
  telemetryByHotkey : String → List NodeData
  metagraphList : List (Nat × String)

/-- `sorted(node_telemetry, key=lambda x: x.timestamp, reverse=True)`:
a stable descending sort by timestamp (ties keep store order). -/
def sortDesc (tel : List NodeData) : List NodeData :=
  tel.mergeSort (fun a b => decide (b.timestamp ≤ a.timestamp))

/-- The delta record built at lines 133-164 of `weights.py`: every counter is
`latest - oldest`, while `uid`, `worker_id` and `timestamp` come from the
latest snapshot. -/
def mkDelta (hotkey : String) (latest oldest : NodeData) : NodeData where
  hotkey := hotkey
  uid := latest.uid
  worker_id := latest.worker_id
  timestamp := latest.timestamp
  boot_time := latest.boot_time - oldest.boot_time
  last_operation_time := latest.last_operation_time - oldest.last_operation_time
  current_time := latest.current_time - oldest.current_time
  twitter_auth_errors := latest.twitter_auth_errors - oldest.twitter_auth_errors
  twitter_errors := latest.twitter_errors - oldest.twitter_errors
  twitter_ratelimit_errors :=
    latest.twitter_ratelimit_errors - oldest.twitter_ratelimit_errors
  twitter_returned_other :=
    latest.twitter_returned_other - oldest.twitter_returned_other
  twitter_returned_profiles :=
    latest.twitter_returned_profiles - oldest.twitter_returned_profiles
  twitter_returned_tweets :=
    latest.twitter_returned_tweets - oldest.twitter_returned_tweets
  twitter_scrapes := latest.twitter_scrapes - oldest.twitter_scrapes
  web_errors := latest.web_errors - oldest.web_errors
  web_success := latest.web_success - oldest.web_success

/-- The "empty telemetry" record of `weights.py` (all counters zero,
`worker_id=""`, `timestamp=0`) with the given uid. -/
def zeroRecord (hotkey : String) (uid : Nat) : NodeData where
  hotkey := hotkey
  uid := some uid
  worker_id := ""
  timestamp := 0
  boot_time := 0
  last_operation_time := 0
  current_time := 0
  twitter_auth_errors := 0
  twitter_errors := 0
  twitter_ratelimit_errors := 0
  twitter_returned_other := 0
  twitter_returned_profiles := 0
  twitter_returned_tweets := 0
  twitter_scrapes := 0
  web_errors := 0
  web_success := 0

/-- `next((uid for uid, hk in all_hotkeys if hk == hotkey), 0)`: the node id
of the first matching registry pair, defaulting to 0. -/
def findUid (allHotkeys : List (Nat × String)) (hotkey : String) : Nat :=
  ((allHotkeys.find? (fun p => p.2 == hotkey)).map Prod.fst).getD 0

/-- The per-hotkey body of the first loop of `_get_delta_node_data`:
with at least two snapshots, the delta of the first and last element of the
descending sort; otherwise the zero record with the registry uid (0 when the
hotkey is not in the registry). -/
def processHotkey (st : StoreState) (hotkey : String) : NodeData :=
  let tel := st.telemetryByHotkey hotkey
  if 2 ≤ tel.length then
    let s := sortDesc tel
    mkDelta hotkey (s.headD (zeroRecord hotkey 0)) (s.getLastD (zeroRecord hotkey 0))
  else
    zeroRecord hotkey (findUid st.metagraphList hotkey)

/-- `WeightsManager._get_delta_node_data`: one record per hotkey with
telemetry, followed by one zero record per registry pair whose hotkey was not
processed in the first loop. -/
def _get_delta_node_data (st : StoreState) : List NodeData :=
  st.hotkeysWithTelemetry.map (processHotkey st)
    ++ (st.metagraphList.filter
        (fun p => ¬ st.hotkeysWithTelemetry.contains p.2)).map
      (fun p => zeroRecord p.2 p.1)

lemma processHotkey_hotkey (st : StoreState) (h : String) :
    (processHotkey st h).hotkey = h := by
  rw [processHotkey]
  split <;> rfl

lemma delta_hotkeys (st : StoreState) :
    (_get_delta_node_data st).map NodeData.hotkey
      = st.hotkeysWithTelemetry
        ++ (st.metagraphList.filter
            (fun p => ¬ st.hotkeysWithTelemetry.contains p.2)).map Prod.snd := by
  rw [_get_delta_node_data, List.map_append, List.map_map, List.map_map]
  congr 1
  rw [show (NodeData.hotkey ∘ processHotkey st) = fun h => (processHotkey st h).hotkey from rfl]
  calc st.hotkeysWithTelemetry.map (fun h => (processHotkey st h).hotkey)
      = st.hotkeysWithTelemetry.map id :=
        List.map_congr_left (fun a _ => processHotkey_hotkey st a)
    _ = st.hotkeysWithTelemetry := List.map_id _

/-- C5: under the dict/set semantics of the collaborators (the metagraph is a
dict keyed by hotkey, the storage returns each hotkey with telemetry once),
every hotkey known to the metagraph occurs exactly once among the hotkeys of
the records `_get_delta_node_data` produces. -/
theorem C5_registry_exactly_once (st : StoreState)
    (hts : st.hotkeysWithTelemetry.Nodup)
    (hmg : (st.metagraphList.map Prod.snd).Nodup)
    (h : String) (hmem : h ∈ st.metagraphList.map Prod.snd) :
    ((_get_delta_node_data st).map NodeData.hotkey).count h = 1 := by
  rw [delta_hotkeys, List.count_append]
  by_cases hin : h ∈ st.hotkeysWithTelemetry
  · rw [List.count_eq_one_of_mem hts hin, List.count_eq_zero_of_not_mem]
    intro hcon
    rcases List.mem_map.mp hcon with ⟨p, hp, rfl⟩
    exact of_decide_eq_true (List.mem_filter.mp hp).2 (List.elem_iff.mpr hin)
  · rw [List.count_eq_zero_of_not_mem hin, List.count_eq_one_of_mem]
    · exact ((List.filter_sublist st.metagraphList).map Prod.snd).nodup hmg
    · rcases List.mem_map.mp hmem with ⟨p, hp, rfl⟩
      refine List.mem_map.mpr ⟨p, List.mem_filter.mpr ⟨hp, ?_⟩, rfl⟩
      exact decide_eq_true (fun hc => hin (List.elem_iff.mp hc))

/-- Witness for C5: a registry with one node and an empty telemetry store. -/
theorem C5_registry_exactly_once_witness :
    ([] : List String).Nodup ∧ ([(1, "a")].map Prod.snd).Nodup ∧
      "a" ∈ [((1 : Nat), "a")].map Prod.snd ∧
      ((_get_delta_node_data
          ⟨[], fun _ => [], [(1, "a")]⟩).map NodeData.hotkey).count "a" = 1 :=
  ⟨by decide, by decide, by decide,
    C5_registry_exactly_once ⟨[], fun _ => [], [(1, "a")]⟩ (by decide)
      (by decide) "a" (by decide)⟩

lemma headD_mem {α : Type} : ∀ (l : List α), l ≠ [] → ∀ d : α, l.headD d ∈ l
  | [], h, _ => absurd rfl h
  | a :: t, _, d => by simp

lemma getLastD_mem {α : Type} : ∀ (l : List α), l ≠ [] → ∀ d : α, l.getLastD d ∈ l
  | [], h, _ => absurd rfl h
  | [a], _, d => by simp
  | a :: b :: t, _, d => by
    rw [List.getLastD_cons]
    exact List.mem_cons_of_mem a (getLastD_mem (b :: t) (by simp) a)

lemma pairwise_rel_getLastD {r : NodeData → NodeData → Prop} :
    ∀ (l : List NodeData), l.Pairwise r → ∀ d, ∀ x ∈ l,
      x = l.getLastD d ∨ r x (l.getLastD d)
  | [], _, _, x, hx => by cases hx
  | [a], _, d, x, hx => by
    rcases List.mem_singleton.mp hx with rfl
    left; rfl
  | a :: b :: t, hp, d, x, hx => by
    rcases List.pairwise_cons.mp hp with ⟨ha, htail⟩
    rw [List.getLastD_cons]
    rcases List.mem_cons.mp hx with rfl | hx'
    · right
      exact ha _ (getLastD_mem (b :: t) (by simp) x)
    · exact pairwise_rel_getLastD (b :: t) htail a x hx'

lemma pairwise_rel_headD {r : NodeData → NodeData → Prop} {l : List NodeData}
    (hp : l.Pairwise r) (d : NodeData) (x : NodeData) (hx : x ∈ l) :
    x = l.headD d ∨ r (l.headD d) x := by
  cases l with
  | nil => cases hx
  | cons a t =>
    rcases List.mem_cons.mp hx with rfl | hx'
    · left; rfl
    · right
      exact (List.pairwise_cons.mp hp).1 x hx'

lemma sortDesc_pairwise (tel : List NodeData) :
    (sortDesc tel).Pairwise (fun a b => b.timestamp ≤ a.timestamp) := by
  have hp := @List.sorted_mergeSort NodeData
    (fun a b : NodeData => decide (b.timestamp ≤ a.timestamp))
    (fun a b c hab hbc => by
      simp only [decide_eq_true_eq] at *
      exact le_trans hbc hab)
    (fun a b => by
      simp only [Bool.or_eq_true, decide_eq_true_eq]
      exact le_total b.timestamp a.timestamp)
    tel
  exact hp.imp (fun hab => by simpa using hab)

lemma sortDesc_mem {tel : List NodeData} {x : NodeData} :
    x ∈ sortDesc tel ↔ x ∈ tel := List.mem_mergeSort

lemma sortDesc_ne_nil {tel : List NodeData} (h : tel ≠ []) :
    sortDesc tel ≠ [] := by
  intro hcon
  have := @List.length_mergeSort NodeData
    (fun a b : NodeData => decide (b.timestamp ≤ a.timestamp)) tel
  rw [show tel.mergeSort _ = sortDesc tel from rfl, hcon] at this
  exact h (List.length_eq_zero.mp this.symm)

/-- C6: a hotkey with at least two snapshots gets the delta record of the
first and last element of the stable descending timestamp sort (counters
`latest - oldest` without clamping, `timestamp` and slot id from the latest
snapshot, both extremal timestamps of the whole snapshot set); a hotkey with
fewer than two snapshots gets the zero record with the registry slot id
(0 when absent). -/
theorem C6_delta_values (st : StoreState) (h : String) :
    (2 ≤ (st.telemetryByHotkey h).length →
      ∃ latest oldest : NodeData,
        latest ∈ st.telemetryByHotkey h ∧ oldest ∈ st.telemetryByHotkey h ∧
        (∀ s ∈ st.telemetryByHotkey h, s.timestamp ≤ latest.timestamp) ∧
        (∀ s ∈ st.telemetryByHotkey h, oldest.timestamp ≤ s.timestamp) ∧
        latest = (sortDesc (st.telemetryByHotkey h)).headD (zeroRecord h 0) ∧
        oldest = (sortDesc (st.telemetryByHotkey h)).getLastD (zeroRecord h 0) ∧
        processHotkey st h = mkDelta h latest oldest ∧
        (processHotkey st h).timestamp = latest.timestamp ∧
        (processHotkey st h).uid = latest.uid ∧
        (processHotkey st h).web_success
          = latest.web_success - oldest.web_success ∧
        (processHotkey st h).twitter_returned_tweets
          = latest.twitter_returned_tweets - oldest.twitter_returned_tweets ∧
        (processHotkey st h).twitter_returned_profiles
          = latest.twitter_returned_profiles
            - oldest.twitter_returned_profiles) ∧
    ((st.telemetryByHotkey h).length < 2 →
      processHotkey st h = zeroRecord h (findUid st.metagraphList h)) := by
  constructor
  · intro h2
    have hne : st.telemetryByHotkey h ≠ [] := by
      intro hcon
      rw [hcon] at h2
      simp at h2
    have hsne := sortDesc_ne_nil hne
    have hpair := sortDesc_pairwise (st.telemetryByHotkey h)
    refine ⟨(sortDesc (st.telemetryByHotkey h)).headD (zeroRecord h 0),
      (sortDesc (st.telemetryByHotkey h)).getLastD (zeroRecord h 0),
      ?_, ?_, ?_, ?_, rfl, rfl, ?_, ?_, ?_, ?_, ?_, ?_⟩
    · exact sortDesc_mem.mp (headD_mem _ hsne _)
    · exact sortDesc_mem.mp (getLastD_mem _ hsne _)
    · intro s hs
      rcases pairwise_rel_headD hpair (zeroRecord h 0) s
        (sortDesc_mem.mpr hs) with rfl | hrel
      · exact le_refl _
      · exact hrel
    · intro s hs
      rcases pairwise_rel_getLastD _ hpair (zeroRecord h 0) s
        (sortDesc_mem.mpr hs) with heq | hrel
      · rw [heq]
      · exact hrel
    · rw [processHotkey]
      simp only [if_pos h2]
    · rw [processHotkey]
      simp only [if_pos h2]
      rfl
    · rw [processHotkey]
      simp only [if_pos h2]
      rfl
    · rw [processHotkey]
      simp only [if_pos h2]
      rfl
    · rw [processHotkey]
      simp only [if_pos h2]
      rfl
    · rw [processHotkey]
      simp only [if_pos h2]
      rfl
  · intro hlt
    rw [processHotkey]
    simp only [if_neg (by omega : ¬ 2 ≤ (st.telemetryByHotkey h).length)]

/-- A concrete store for the C6 witness: hotkey `"a"` has two snapshots,
hotkey `"b"` has none and is in the registry with node id 4. -/
def stC6 : StoreState where
  hotkeysWithTelemetry := ["a"]
  telemetryByHotkey := fun hk =>
    if hk = "a" then
      [{ zeroRecord "a" 1 with timestamp := 5, web_success := 2 },
       { zeroRecord "a" 1 with timestamp := 9, web_success := 10 }]
    else []
  metagraphList := [(4, "b")]

/-- Witness for C6, exercising both branches of the theorem: hotkey `"a"`
with two snapshots and hotkey `"b"` with none. -/
theorem C6_delta_values_witness :
    (2 ≤ (stC6.telemetryByHotkey "a").length ∧
      ∃ latest oldest : NodeData,
        latest ∈ stC6.telemetryByHotkey "a" ∧ oldest ∈ stC6.telemetryByHotkey "a" ∧
        (∀ s ∈ stC6.telemetryByHotkey "a", s.timestamp ≤ latest.timestamp) ∧
        (∀ s ∈ stC6.telemetryByHotkey "a", oldest.timestamp ≤ s.timestamp) ∧
        latest = (sortDesc (stC6.telemetryByHotkey "a")).headD (zeroRecord "a" 0) ∧
        oldest = (sortDesc (stC6.telemetryByHotkey "a")).getLastD (zeroRecord "a" 0) ∧
        processHotkey stC6 "a" = mkDelta "a" latest oldest ∧
        (processHotkey stC6 "a").timestamp = latest.timestamp ∧
        (processHotkey stC6 "a").uid = latest.uid ∧
        (processHotkey stC6 "a").web_success
          = latest.web_success - oldest.web_success ∧
        (processHotkey stC6 "a").twitter_returned_tweets
          = latest.twitter_returned_tweets - oldest.twitter_returned_tweets ∧
        (processHotkey stC6 "a").twitter_returned_profiles
          = latest.twitter_returned_profiles
            - oldest.twitter_returned_profiles) ∧
    ((stC6.telemetryByHotkey "b").length < 2 ∧
      processHotkey stC6 "b" = zeroRecord "b" (findUid stC6.metagraphList "b")) :=
  ⟨⟨by decide, (C6_delta_values stC6 "a").1 (by decide)⟩,
   ⟨by decide, (C6_delta_values stC6 "b").2 (by decide)⟩⟩

/-- Exception classes distinguished by `calculate_weights`: the loop body
catches exactly `KeyError`; every other exception class propagates. -/
inductive PyErr
  | keyError
  | otherError
deriving DecidableEq

/-- Side effects observable on the collaborators during weight calculation:
a call to `node_manager.send_score_report`, and the error log written by the
`except KeyError` branch. -/
inductive CEv
  | report (hotkey : String)
  | keyErrLog (hotkey : String)
deriving DecidableEq

/-- State read by `calculate_weights`: the metagraph lookup
`metagraph.nodes[hotkey].node_id` (`none` models the `KeyError` of a missing
hotkey) and the behaviour of `send_score_report` per hotkey (`none` = returns
normally, otherwise the exception class it raises). -/
structure CalcState where
  metagraph : String → Option Nat
  reportErr : String → Option PyErr

/-- `miner_scores[uid] = score` on the insertion-ordered python dict,
modelled as an association list: update in place when the key exists,
append otherwise. -/
def insertOrUpdate : List (Nat × ℝ) → Nat → ℝ → List (Nat × ℝ)
  | [], k, v => [(k, v)]
  | (a, b) :: rest, k, v =>
    if a = k then (a, v) :: rest else (a, b) :: insertOrUpdate rest k v

/-- `miner_scores[uid]` (the default is unreachable: the source only looks up
keys of the dict). -/
def lookupScore : List (Nat × ℝ) → Nat → ℝ
  | [], _ => 0
  | (a, b) :: rest, u => if a = u then b else lookupScore rest u

/-- Elementwise `(web_successes[idx] + tweets[idx] + profiles[idx]) / 3`. -/
noncomputable def combine3 : List ℝ → List ℝ → List ℝ → List ℝ
  | a :: as, b :: bs, c :: cs => (a + b + c) / 3 :: combine3 as bs cs
  | _, _, _ => []

/-- The three metric arrays of `calculate_weights`, each pushed through the
kurtosis transform at default parameters, combined per index with equal
weight. -/
noncomputable def combinedScores (records : List NodeData) : List ℝ :=
  combine3
    (kurtosisDefault (records.map (fun r => (r.web_success : ℝ))))
    (kurtosisDefault (records.map (fun r => (r.twitter_returned_tweets : ℝ))))
    (kurtosisDefault (records.map (fun r => (r.twitter_returned_profiles : ℝ))))

/-- Slot-id resolution at line 282-285 of `weights.py`: the record's own
`uid` in simulation mode, otherwise the metagraph lookup (whose failure is a
`KeyError`, modelled as `none`). -/
def resolveUid (st : CalcState) (simulation : Bool) (r : NodeData) :
    Option Nat :=
  if simulation then r.uid else st.metagraph r.hotkey

/-- The `for idx, node in enumerate(delta_node_data)` loop of
`calculate_weights`.  In non-simulation mode a failed metagraph lookup raises
`KeyError`, which is caught and logged; a `None` uid is skipped silently;
otherwise the score is recorded in the dict and `send_score_report` is
called — a `KeyError` from it is caught and logged (the score stays recorded),
any other exception propagates out of the whole calculation. -/
def scoreLoop (st : CalcState) (simulation : Bool) :
    List (NodeData × ℝ) → List (Nat × ℝ) →
      Except PyErr (List (Nat × ℝ) × List CEv)
  | [], scored => .ok (scored, [])
  | (r, s) :: rest, scored =>
    match resolveUid st simulation r with
    | none =>
      if simulation then scoreLoop st simulation rest scored
      else (scoreLoop st simulation rest scored).map
        (fun p => (p.1, CEv.keyErrLog r.hotkey :: p.2))
    | some u =>
      match st.reportErr r.hotkey with
      | some PyErr.otherError => .error PyErr.otherError
      | some PyErr.keyError =>
        (scoreLoop st simulation rest (insertOrUpdate scored u s)).map
          (fun p => (p.1, CEv.report r.hotkey :: CEv.keyErrLog r.hotkey :: p.2))
      | none =>
        (scoreLoop st simulation rest (insertOrUpdate scored u s)).map
          (fun p => (p.1, CEv.report r.hotkey :: p.2))

/-- `sorted(miner_scores.keys(), ...)`: the dict keys sorted ascending
(numeric comparison; uids are ints in this repository). -/
def uidsFromScored (scored : List (Nat × ℝ)) : List Nat :=
  (scored.map Prod.fst).mergeSort (fun a b => decide (a ≤ b))

/-- `WeightsManager.calculate_weights`: empty input returns `([], [])`
immediately; otherwise run the scoring loop, then sort the dict keys
ascending and align the weights array to the sorted order. -/
noncomputable def calculate_weights (st : CalcState) (records : List NodeData)
    (simulation : Bool) : Except PyErr (List Nat × List ℝ × List CEv) :=
  if records.isEmpty then .ok ([], [], [])
  else
    (scoreLoop st simulation (records.zip (combinedScores records)) []).map
      (fun p => (uidsFromScored p.1,
        (uidsFromScored p.1).map (fun u => lookupScore p.1 u), p.2))

/-- The events component of a calculation result (an exception discards it). -/
def eventsOf (res : Except PyErr (List Nat × List ℝ × List CEv)) : List CEv :=
  match res with
  | .ok p => p.2.2
  | .error _ => []

/-- The returned slot-id array of a calculation result. -/
def uidsOf (res : Except PyErr (List Nat × List ℝ × List CEv)) : List Nat :=
  match res with
  | .ok p => p.1
  | .error _ => []

/-- The single optional event record `r` contributes when score reports do
not raise. -/
def evOne (st : CalcState) (simulation : Bool) (r : NodeData) : Option CEv :=
  match resolveUid st simulation r with
  | none => if simulation then none else some (CEv.keyErrLog r.hotkey)
  | some _ => some (CEv.report r.hotkey)

/-- One step of the dict accumulation of the scoring loop. -/
def stepScored (st : CalcState) (simulation : Bool) (sc : List (Nat × ℝ))
    (p : NodeData × ℝ) : List (Nat × ℝ) :=
  match resolveUid st simulation p.1 with
  | none => sc
  | some u => insertOrUpdate sc u p.2

/-- The final `miner_scores` dict of the scoring loop. -/
def foldScored (st : CalcState) (simulation : Bool)
    (pairs : List (NodeData × ℝ)) (scored : List (Nat × ℝ)) :
    List (Nat × ℝ) :=
  pairs.foldl (stepScored st simulation) scored

lemma scoreLoop_eq (st : CalcState) (simulation : Bool)
    (hrep : ∀ hk, st.reportErr hk = none) :
    ∀ (pairs : List (NodeData × ℝ)) (scored : List (Nat × ℝ)),
      scoreLoop st simulation pairs scored
        = .ok (foldScored st simulation pairs scored,
            pairs.filterMap (fun p => evOne st simulation p.1))
  | [], scored => by simp [scoreLoop, foldScored]
  | (r, s) :: rest, scored => by
    cases hres : resolveUid st simulation r with
    | none =>
      cases simulation with
      | true =>
        simpa [scoreLoop, hres, foldScored, stepScored, evOne]
          using scoreLoop_eq st true hrep rest scored
      | false =>
        simp [scoreLoop, hres, foldScored, stepScored, evOne, Except.map,
          scoreLoop_eq st false hrep rest scored]
    | some u =>
      simp [scoreLoop, hres, hrep r.hotkey, foldScored, stepScored, evOne,
        Except.map,
        scoreLoop_eq st simulation hrep rest (insertOrUpdate scored u s)]

lemma combine3_length : ∀ (as bs cs : List ℝ), bs.length = as.length →
    cs.length = as.length → (combine3 as bs cs).length = as.length
  | [], _, _, _, _ => by simp [combine3]
  | a :: as, bs, cs, hb, hc => by
    cases bs with
    | nil => simp at hb
    | cons b bs =>
      cases cs with
      | nil => simp at hc
      | cons c cs =>
        simp only [combine3, List.length_cons]
        rw [combine3_length as bs cs (by simpa using hb) (by simpa using hc)]

lemma combinedScores_length (records : List NodeData) :
    (combinedScores records).length = records.length := by
  rw [combinedScores, combine3_length]
  · simp [kurtosisDefault, length_apply_kurtosis_custom]
  · simp [kurtosisDefault, length_apply_kurtosis_custom]
  · simp [kurtosisDefault, length_apply_kurtosis_custom]

lemma zip_filterMap_fst {β : Type} (records : List NodeData) (scores : List ℝ)
    (h : records.length ≤ scores.length) (f : NodeData → Option β) :
    (records.zip scores).filterMap (fun p => f p.1) = records.filterMap f := by
  conv_rhs => rw [← List.map_fst_zip records scores h]
  rw [List.filterMap_map]
  rfl

lemma zip_scores_filterMap {β : Type} (records : List NodeData)
    (f : NodeData → Option β) :
    (records.zip (combinedScores records)).filterMap (fun p => f p.1)
      = records.filterMap f :=
  zip_filterMap_fst records _ (le_of_eq (combinedScores_length records).symm) f

lemma insertOrUpdate_keys_of_not_mem :
    ∀ (l : List (Nat × ℝ)) (u : Nat) (v : ℝ), u ∉ l.map Prod.fst →
      (insertOrUpdate l u v).map Prod.fst = l.map Prod.fst ++ [u]
  | [], u, v, _ => by simp [insertOrUpdate]
  | (a, b) :: rest, u, v, h => by
    have h1 : ¬ (a = u) := by
      intro hc
      exact h (by simp [hc])
    have h2 : u ∉ rest.map Prod.fst := by
      intro hc
      exact h (by simp [hc])
    simp only [insertOrUpdate, if_neg h1, List.map_cons, List.cons_append,
      List.cons.injEq, true_and]
    exact insertOrUpdate_keys_of_not_mem rest u v h2

lemma mem_insertOrUpdate_keys :
    ∀ (l : List (Nat × ℝ)) (u : Nat) (v : ℝ) (x : Nat),
      x ∈ (insertOrUpdate l u v).map Prod.fst → x ∈ l.map Prod.fst ∨ x = u
  | [], u, v, x, h => by
    simp [insertOrUpdate] at h
    right; exact h
  | (a, b) :: rest, u, v, x, h => by
    by_cases hau : a = u
    · simp [insertOrUpdate, hau] at h
      rcases h with rfl | h
      · right; rfl
      · left; simp [h]
    · simp only [insertOrUpdate, if_neg hau, List.map_cons, List.mem_cons] at h
      rcases h with rfl | h
      · left; simp
      · rcases mem_insertOrUpdate_keys rest u v x h with h' | h'
        · left; simp [h']
        · right; exact h'

lemma foldScored_keys (st : CalcState) (simulation : Bool) :
    ∀ (pairs : List (NodeData × ℝ)) (scored : List (Nat × ℝ)),
      (pairs.filterMap (fun p => resolveUid st simulation p.1)).Nodup →
      (∀ u ∈ pairs.filterMap (fun p => resolveUid st simulation p.1),
        u ∉ scored.map Prod.fst) →
      (foldScored st simulation pairs scored).map Prod.fst
        = scored.map Prod.fst
          ++ pairs.filterMap (fun p => resolveUid st simulation p.1)
  | [], scored, _, _ => by simp [foldScored]
  | (r, s) :: rest, scored, hnd, hdis => by
    cases hres : resolveUid st simulation r with
    | none =>
      have hnd' := by simpa [List.filterMap_cons, hres] using hnd
      have hdis' : ∀ u ∈ rest.filterMap (fun p => resolveUid st simulation p.1),
          u ∉ scored.map Prod.fst := by
        intro u hu
        exact hdis u (by simpa [List.filterMap_cons, hres] using hu)
      simpa [foldScored, stepScored, hres, List.filterMap_cons]
        using foldScored_keys st simulation rest scored hnd' hdis'
    | some u =>
      rw [List.filterMap_cons] at hnd hdis
      simp only [hres] at hnd hdis
      have hu_new : u ∉ rest.filterMap (fun p => resolveUid st simulation p.1) :=
        (List.nodup_cons.mp hnd).1
      have hnd' := (List.nodup_cons.mp hnd).2
      have hu_sc : u ∉ scored.map Prod.fst := hdis u (List.mem_cons_self u _)
      have hdis' : ∀ x ∈ rest.filterMap (fun p => resolveUid st simulation p.1),
          x ∉ (insertOrUpdate scored u s).map Prod.fst := by
        intro x hx hmem
        rcases mem_insertOrUpdate_keys scored u s x hmem with h' | rfl
        · exact hdis x (List.mem_cons_of_mem u hx) h'
        · exact hu_new hx
      have hrec := foldScored_keys st simulation rest
        (insertOrUpdate scored u s) hnd' hdis'
      simp only [foldScored, List.foldl_cons] at hrec ⊢
      rw [show stepScored st simulation scored (r, s)
          = insertOrUpdate scored u s from by simp [stepScored, hres]]
      rw [hrec, insertOrUpdate_keys_of_not_mem scored u s hu_sc,
        List.filterMap_cons]
      simp [hres]

lemma foldScored_keys_subset (st : CalcState) (simulation : Bool) :
    ∀ (pairs : List (NodeData × ℝ)) (scored : List (Nat × ℝ)) (u : Nat),
      u ∈ (foldScored st simulation pairs scored).map Prod.fst →
      u ∈ scored.map Prod.fst
        ∨ u ∈ pairs.filterMap (fun p => resolveUid st simulation p.1)
  | [], scored, u, h => by
    left
    simpa [foldScored] using h
  | (r, s) :: rest, scored, u, h => by
    simp only [foldScored, List.foldl_cons] at h
    cases hres : resolveUid st simulation r with
    | none =>
      rw [show stepScored st simulation scored (r, s) = scored
          from by simp [stepScored, hres]] at h
      rcases foldScored_keys_subset st simulation rest scored u h with h' | h'
      · left; exact h'
      · right; simp [List.filterMap_cons, hres, h']
    | some w =>
      rw [show stepScored st simulation scored (r, s)
          = insertOrUpdate scored w s from by simp [stepScored, hres]] at h
      rcases foldScored_keys_subset st simulation rest
        (insertOrUpdate scored w s) u h with h' | h'
      · rcases mem_insertOrUpdate_keys scored w s u h' with h'' | rfl
        · left; exact h''
        · right; simp [List.filterMap_cons, hres]
      · right
        rw [List.filterMap_cons]
        simp only [hres]
        exact List.mem_cons_of_mem w h'

lemma evOne_true (st : CalcState) (r : NodeData) :
    evOne st true r
      = if r.uid.isSome then some (CEv.report r.hotkey) else none := by
  cases huid : r.uid <;> simp [evOne, resolveUid, huid]

lemma calculate_events (st : CalcState) (records : List NodeData)
    (simulation : Bool) (hrep : ∀ hk, st.reportErr hk = none) :
    eventsOf (calculate_weights st records simulation)
      = records.filterMap (evOne st simulation) := by
  cases records with
  | nil => simp [calculate_weights, eventsOf]
  | cons r rest =>
    rw [calculate_weights, if_neg (by simp),
      scoreLoop_eq st simulation hrep]
    simp only [Except.map, eventsOf]
    exact zip_scores_filterMap (r :: rest) (evOne st simulation)

/-- C10: in simulation mode a record with a `None` uid contributes nothing:
the events of the calculation are exactly one score report per record with a
non-`None` uid (so no error log at all), every returned slot id stems from a
record with a non-`None` uid, and — for contrast — a registry lookup failure
in non-simulation mode does write a `KeyError` error log. -/
theorem C10_none_uid_excluded (st : CalcState) (records : List NodeData)
    (hrep : ∀ hk, st.reportErr hk = none) :
    eventsOf (calculate_weights st records true)
      = records.filterMap (fun r =>
          if r.uid.isSome then some (CEv.report r.hotkey) else none) ∧
    (∀ u ∈ uidsOf (calculate_weights st records true),
      ∃ r ∈ records, r.uid = some u) ∧
    (∀ r ∈ records, st.metagraph r.hotkey = none →
      CEv.keyErrLog r.hotkey ∈ eventsOf (calculate_weights st records false)) := by
  refine ⟨?_, ?_, ?_⟩
  · rw [calculate_events st records true hrep]
    exact List.filterMap_congr (fun r _ => evOne_true st r)
  · intro u hu
    cases records with
    | nil => simp [calculate_weights, uidsOf] at hu
    | cons r rest =>
      rw [calculate_weights, if_neg (by simp),
        scoreLoop_eq st true hrep] at hu
      simp only [Except.map, uidsOf, uidsFromScored] at hu
      rw [List.mem_mergeSort] at hu
      rcases foldScored_keys_subset st true _ [] u hu with hc | hc
      · simp at hc
      · rw [zip_scores_filterMap (r :: rest) (resolveUid st true)] at hc
        rcases List.mem_filterMap.mp hc with ⟨q, hq, hres⟩
        exact ⟨q, hq, by simpa [resolveUid] using hres⟩
  · intro r hr hmg
    rw [calculate_events st records false hrep]
    exact List.mem_filterMap.mpr ⟨r, hr, by simp [evOne, resolveUid, hmg]⟩

/-- State for concrete calculation examples: every metagraph lookup raises
`KeyError`, score reports return normally. -/
def stC1 : CalcState := ⟨fun _ => none, fun _ => none⟩

/-- A record with a `None` uid for the C10 witness. -/
def recNoUid : NodeData := { zeroRecord "c" 0 with uid := none }

/-- Witness for C10: a single simulation-mode record with `uid = None`
is silently dropped. -/
theorem C10_none_uid_excluded_witness :
    (∀ hk, stC1.reportErr hk = none) ∧
      (eventsOf (calculate_weights stC1 [recNoUid] true)
        = [recNoUid].filterMap (fun r =>
            if r.uid.isSome then some (CEv.report r.hotkey) else none) ∧
      (∀ u ∈ uidsOf (calculate_weights stC1 [recNoUid] true),
        ∃ r ∈ [recNoUid], r.uid = some u) ∧
      (∀ r ∈ [recNoUid], stC1.metagraph r.hotkey = none →
        CEv.keyErrLog r.hotkey
          ∈ eventsOf (calculate_weights stC1 [recNoUid] false))) :=
  ⟨fun _ => rfl, C10_none_uid_excluded stC1 [recNoUid] (fun _ => rfl)⟩

lemma kurtosisDefault_zero_single : kurtosisDefault [(0 : ℝ)] = [0] := by
  have hcond : (([(0 : ℝ)]).length = 0 ∨ ∀ v ∈ [(0 : ℝ)], v = 0) := by
    right
    intro v hv
    simpa using hv
  rw [kurtosisDefault, apply_kurtosis_custom, if_pos hcond]
  rfl

lemma combinedScores_zero_single (hk : String) (u : Nat) :
    combinedScores [zeroRecord hk u] = [0] := by
  rw [combinedScores]
  rw [show ([zeroRecord hk u].map (fun r => ((r.web_success : ℝ)))) = [(0 : ℝ)]
    from by simp [zeroRecord]]
  rw [show ([zeroRecord hk u].map
      (fun r => ((r.twitter_returned_tweets : ℝ)))) = [(0 : ℝ)]
    from by simp [zeroRecord]]
  rw [show ([zeroRecord hk u].map
      (fun r => ((r.twitter_returned_profiles : ℝ)))) = [(0 : ℝ)]
    from by simp [zeroRecord]]
  rw [kurtosisDefault_zero_single]
  simp [combine3]

/-- C1 counterexample: in simulation mode with one record (uid 5, hotkey
`"a"`), `calculate_weights` does call `send_score_report` — the claim that
simulation mode sends no score report is false on the code. -/
theorem C1_counterexample :
    eventsOf (calculate_weights stC1 [zeroRecord "a" 5] true)
      = [CEv.report "a"] := by
  rw [calculate_weights, if_neg (by simp)]
  rw [show ([zeroRecord "a" 5].zip (combinedScores [zeroRecord "a" 5]))
      = [(zeroRecord "a" 5, (0 : ℝ))] from by
    rw [combinedScores_zero_single]
    rfl]
  simp [scoreLoop, resolveUid, stC1, zeroRecord, eventsOf, Except.map,
    insertOrUpdate]

/-- C1 amended: simulation mode performs no ledger side effect and uses the
record's own slot id, but it still sends a score report to the node manager
for every record whose uid is not `None`. -/
theorem C1_simulation_still_reports (st : CalcState) (records : List NodeData)
    (hrep : ∀ hk, st.reportErr hk = none) (r : NodeData) (hr : r ∈ records)
    (hu : r.uid.isSome) :
    CEv.report r.hotkey ∈ eventsOf (calculate_weights st records true) := by
  rw [calculate_events st records true hrep]
  rcases Option.isSome_iff_exists.mp hu with ⟨w, hw⟩
  exact List.mem_filterMap.mpr ⟨r, hr, by simp [evOne, resolveUid, hw]⟩

/-- Witness for the amended C1 at a concrete record. -/
theorem C1_simulation_still_reports_witness :
    (∀ hk, stC1.reportErr hk = none) ∧
      zeroRecord "b" 7 ∈ [zeroRecord "b" 7] ∧
      (zeroRecord "b" 7).uid.isSome ∧
      CEv.report "b" ∈ eventsOf (calculate_weights stC1 [zeroRecord "b" 7] true) :=
  ⟨fun _ => rfl, List.mem_singleton.mpr rfl, by decide,
    C1_simulation_still_reports stC1 [zeroRecord "b" 7] (fun _ => rfl)
      (zeroRecord "b" 7) (List.mem_singleton.mpr rfl) (by decide)⟩

/-- State whose score reports raise a non-`KeyError` exception. -/
def stC4 : CalcState := ⟨fun _ => none, fun _ => some PyErr.otherError⟩

/-- C4 counterexample: a score report failing with an exception other than
`KeyError` aborts the whole weight calculation (the loop catches only
`KeyError`), contradicting the claim that any raised error is logged and not
propagated. -/
theorem C4_counterexample :
    calculate_weights stC4 [zeroRecord "a" 5] true
      = Except.error PyErr.otherError := by
  rw [calculate_weights, if_neg (by simp)]
  rw [show ([zeroRecord "a" 5].zip (combinedScores [zeroRecord "a" 5]))
      = [(zeroRecord "a" 5, (0 : ℝ))] from by
    rw [combinedScores_zero_single]
    rfl]
  simp [scoreLoop, resolveUid, stC4, zeroRecord, Except.map]

lemma scoreLoop_no_other (st : CalcState) (simulation : Bool)
    (hrep : ∀ hk, st.reportErr hk ≠ some PyErr.otherError) :
    ∀ (pairs : List (NodeData × ℝ)) (scored : List (Nat × ℝ)),
      ∃ evs, scoreLoop st simulation pairs scored
        = .ok (foldScored st simulation pairs scored, evs)
  | [], scored => ⟨[], by simp [scoreLoop, foldScored]⟩
  | (r, s) :: rest, scored => by
    cases hres : resolveUid st simulation r with
    | none =>
      obtain ⟨evs, hevs⟩ := scoreLoop_no_other st simulation hrep rest scored
      cases simulation with
      | true =>
        exact ⟨evs, by simp [scoreLoop, hres, hevs, foldScored, stepScored]⟩
      | false =>
        exact ⟨CEv.keyErrLog r.hotkey :: evs, by
          simp [scoreLoop, hres, hevs, foldScored, stepScored, Except.map]⟩
    | some u =>
      obtain ⟨evs, hevs⟩ := scoreLoop_no_other st simulation hrep rest
        (insertOrUpdate scored u s)
      cases hre : st.reportErr r.hotkey with
      | none =>
        exact ⟨CEv.report r.hotkey :: evs, by
          simp [scoreLoop, hres, hre, hevs, foldScored, stepScored, Except.map]⟩
      | some e =>
        cases e with
        | keyError =>
          exact ⟨CEv.report r.hotkey :: CEv.keyErrLog r.hotkey :: evs, by
            simp [scoreLoop, hres, hre, hevs, foldScored, stepScored, Except.map]⟩
        | otherError => exact absurd hre (hrep r.hotkey)

/-- C4 amended: a `KeyError` from the score report is caught and logged and
does not abort the calculation — the slot ids and weights returned are the
same as with a node manager that never fails (the score is recorded before
the report is sent); only a non-`KeyError` exception aborts. -/
theorem C4_keyerror_only_caught (st : CalcState) (records : List NodeData)
    (simulation : Bool)
    (hrep : ∀ hk, st.reportErr hk ≠ some PyErr.otherError) :
    ∃ uids ws evs evs2,
      calculate_weights st records simulation = .ok (uids, ws, evs) ∧
      calculate_weights { st with reportErr := fun _ => none } records
        simulation = .ok (uids, ws, evs2) := by
  cases records with
  | nil =>
    exact ⟨[], [], [], [], by simp [calculate_weights],
      by simp [calculate_weights]⟩
  | cons r rest =>
    obtain ⟨evs, hevs⟩ := scoreLoop_no_other st simulation hrep
      ((r :: rest).zip (combinedScores (r :: rest))) []
    have h2 := scoreLoop_eq { st with reportErr := fun _ => none } simulation
      (fun _ => rfl) ((r :: rest).zip (combinedScores (r :: rest))) []
    refine ⟨uidsFromScored (foldScored st simulation
        ((r :: rest).zip (combinedScores (r :: rest))) []),
      (uidsFromScored (foldScored st simulation
        ((r :: rest).zip (combinedScores (r :: rest))) [])).map
        (fun u => lookupScore (foldScored st simulation
          ((r :: rest).zip (combinedScores (r :: rest))) []) u),
      evs,
      ((r :: rest).zip (combinedScores (r :: rest))).filterMap
        (fun p => evOne { st with reportErr := fun _ => none } simulation p.1),
      ?_, ?_⟩
    · rw [calculate_weights, if_neg (by simp), hevs]
      rfl
    · rw [calculate_weights, if_neg (by simp), h2]
      rfl

/-- State whose score reports raise `KeyError`. -/
def stC4w : CalcState := ⟨fun _ => none, fun _ => some PyErr.keyError⟩

/-- Witness for the amended C4: score reports that raise `KeyError` leave
the returned slot ids and weights unchanged. -/
theorem C4_keyerror_only_caught_witness :
    (∀ hk, stC4w.reportErr hk ≠ some PyErr.otherError) ∧
      ∃ uids ws evs evs2,
        calculate_weights stC4w [zeroRecord "a" 5] true = .ok (uids, ws, evs) ∧
        calculate_weights { stC4w with reportErr := fun _ => none }
          [zeroRecord "a" 5] true = .ok (uids, ws, evs2) :=
  ⟨fun hk => by simp [stC4w],
    C4_keyerror_only_caught stC4w [zeroRecord "a" 5] true
      (fun hk => by simp [stC4w])⟩

/-- C8: `calculate_weights` returns `([], [])` on empty input; otherwise
(score reports well-behaved, resolved slot ids distinct as the registry
guarantees) it returns arrays of equal length, with the slot ids sorted
ascending, without duplicates, a permutation of the successfully-resolved
slot ids (so one entry per resolved record, fewer than the input length when
lookups fail), and the weights aligned to the sorted slot-id order via the
score dict. -/
theorem C8_calculate_shape (st : CalcState) (records : List NodeData)
    (simulation : Bool) (hrep : ∀ hk, st.reportErr hk = none)
    (hinj : (records.filterMap (resolveUid st simulation)).Nodup) :
    calculate_weights st [] simulation = .ok ([], [], []) ∧
    ∃ uids ws evs,
      calculate_weights st records simulation = .ok (uids, ws, evs) ∧
      uids.length = ws.length ∧
      List.Sorted (fun a b => a ≤ b) uids ∧
      uids.Nodup ∧
      uids.Perm (records.filterMap (resolveUid st simulation)) ∧
      uids.length ≤ records.length ∧
      ws = uids.map (lookupScore
        (foldScored st simulation (records.zip (combinedScores records)) [])) := by
  constructor
  · simp [calculate_weights]
  · cases records with
    | nil =>
      refine ⟨[], [], [], by simp [calculate_weights], by simp,
        List.sorted_nil, List.nodup_nil, by simp, by simp, by simp⟩
    | cons r rest =>
      have hpairs := scoreLoop_eq st simulation hrep
        ((r :: rest).zip (combinedScores (r :: rest))) []
      have hkeys : (foldScored st simulation
          ((r :: rest).zip (combinedScores (r :: rest))) []).map Prod.fst
          = (r :: rest).filterMap (resolveUid st simulation) := by
        rw [foldScored_keys st simulation _ []
          (by rw [zip_scores_filterMap]; exact hinj)
          (by intro u hu; simp)]
        rw [List.map_nil, List.nil_append]
        exact zip_scores_filterMap (r :: rest) (resolveUid st simulation)
      have hperm : (uidsFromScored (foldScored st simulation
          ((r :: rest).zip (combinedScores (r :: rest))) [])).Perm
          ((r :: rest).filterMap (resolveUid st simulation)) := by
        rw [uidsFromScored, ← hkeys]
        exact List.mergeSort_perm _ _
      have hsorted : List.Sorted (fun a b : Nat => a ≤ b)
          (uidsFromScored (foldScored st simulation
            ((r :: rest).zip (combinedScores (r :: rest))) [])) := by
        have hp := @List.sorted_mergeSort Nat
          (fun a b : Nat => decide (a ≤ b))
          (fun a b c hab hbc => by
            simp only [decide_eq_true_eq] at hab hbc ⊢
            omega)
          (fun a b => by
            simp only [Bool.or_eq_true, decide_eq_true_eq]
            omega)
          ((foldScored st simulation
            ((r :: rest).zip (combinedScores (r :: rest))) []).map Prod.fst)
        exact hp.imp (fun hab => by simpa using hab)
      refine ⟨uidsFromScored (foldScored st simulation
          ((r :: rest).zip (combinedScores (r :: rest))) []),
        (uidsFromScored (foldScored st simulation
          ((r :: rest).zip (combinedScores (r :: rest))) [])).map
          (lookupScore (foldScored st simulation
            ((r :: rest).zip (combinedScores (r :: rest))) [])),
        ((r :: rest).zip (combinedScores (r :: rest))).filterMap
          (fun p => evOne st simulation p.1),
        ?_, ?_, hsorted, ?_, hperm, ?_, rfl⟩
      · rw [calculate_weights, if_neg (by simp), hpairs]
        rfl
      · exact (List.length_map _ _).symm
      · exact hperm.nodup_iff.mpr hinj
      · calc (uidsFromScored (foldScored st simulation
            ((r :: rest).zip (combinedScores (r :: rest))) [])).length
            = ((r :: rest).filterMap (resolveUid st simulation)).length :=
              hperm.length_eq
          _ ≤ (r :: rest).length := List.length_filterMap_le _ _

/-- State for the C8 witness: every hotkey resolves to node id 3. -/
def stC8 : CalcState := ⟨fun _ => some 3, fun _ => none⟩

/-- Witness for C8 on one record in non-simulation mode. -/
theorem C8_calculate_shape_witness :
    (∀ hk, stC8.reportErr hk = none) ∧
      ([zeroRecord "a" 1].filterMap (resolveUid stC8 false)).Nodup ∧
      (calculate_weights stC8 [] false = .ok ([], [], []) ∧
      ∃ uids ws evs,
        calculate_weights stC8 [zeroRecord "a" 1] false = .ok (uids, ws, evs) ∧
        uids.length = ws.length ∧
        List.Sorted (fun a b => a ≤ b) uids ∧
        uids.Nodup ∧
        uids.Perm ([zeroRecord "a" 1].filterMap (resolveUid stC8 false)) ∧
        uids.length ≤ ([zeroRecord "a" 1]).length ∧
        ws = uids.map (lookupScore (foldScored stC8 false
          ([zeroRecord "a" 1].zip (combinedScores [zeroRecord "a" 1])) []))) :=
  ⟨fun _ => rfl, by decide,
    C8_calculate_shape stC8 [zeroRecord "a" 1] false (fun _ => rfl) (by decide)⟩

/-- Outcome of one `weights.set_node_weights` call: returned `True`,
returned a falsy value, or raised. -/
inductive SubmitRes
  | success
  | failure
  | raised
deriving DecidableEq

/-- Events of one publisher cycle (`WeightsManager.set_weights`). -/
inductive SEv
  | refresh
  | checkInterval (bsu : Option Int) (mi : Int)
  | sleep (secs : Int)
  | attempt (k : Nat) (uids : List Nat) (ws : List ℝ)
  | submitted (uids : List Nat) (ws : List ℝ)
  | failedAll

/-- Environment a publisher cycle runs against: the telemetry/metagraph state
for the delta computation, the calculation state, the validator's own
metagraph entry (`none` models the `KeyError` of an unregistered validator
hotkey), the chain queries and the per-attempt submission outcome. -/
structure ChainEnv where
  store : StoreState
  calcSt : CalcState
  validatorNodeId : Option Nat
  blocksSinceUpdate : Nat → Option Int
  minInterval : Int
  submit : Nat → SubmitRes

/-- The `for attempt in range(3)` submission loop of `set_weights`: log the
attempt, return on success, otherwise (failure or exception — both handled
alike) sleep 10 seconds unless this was the last attempt; after the loop log
the overall failure. -/
def submit_go (submit : Nat → SubmitRes) (uids : List Nat) (ws : List ℝ) :
    List Nat → List SEv
  | [] => [SEv.failedAll]
  | a :: rest =>
    SEv.attempt a uids ws ::
      match submit a with
      | SubmitRes.success => [SEv.submitted uids ws]
      | _ => (if a < 2 then [SEv.sleep 10] else []) ++ submit_go submit uids ws rest

/-- `WeightsManager.set_weights`: refresh the substrate connection, look up
the validator node id (a missing hotkey raises `KeyError`), query
blocks-since-update and min-interval once, sleep `(min_interval -
blocks_since_update) * 12` seconds when the former is known and smaller,
then compute deltas and weights and run the submission loop.  Returns the
event trace and the exception escaping the call, if any. -/
noncomputable def set_weights (env : ChainEnv) : List SEv × Option PyErr :=
  match env.validatorNodeId with
  | none => ([SEv.refresh], some PyErr.keyError)
  | some _ =>
    let bsu := env.blocksSinceUpdate 0
    let waitEvs :=
      match bsu with
      | some b =>
        if b < env.minInterval
          then [SEv.sleep ((env.minInterval - b) * 12)] else []
      | none => []
    match calculate_weights env.calcSt (_get_delta_node_data env.store) false with
    | .error e =>
      ([SEv.refresh, SEv.checkInterval bsu env.minInterval] ++ waitEvs, some e)
    | .ok (uids, ws, _) =>
      ([SEv.refresh, SEv.checkInterval bsu env.minInterval] ++ waitEvs
        ++ submit_go env.submit uids ws [0, 1, 2], none)

/-- Event-kind predicate: an interval check. -/
def isCheck : SEv → Bool
  | SEv.checkInterval _ _ => true
  | _ => false

/-- Event-kind predicate: a submission attempt. -/
def isAttempt : SEv → Bool
  | SEv.attempt _ _ _ => true
  | _ => false

/-- Event-kind predicate: a suspension. -/
def isSleep : SEv → Bool
  | SEv.sleep _ => true
  | _ => false

/-- Number of submission attempts in a trace. -/
def attemptCount (tr : List SEv) : Nat := tr.countP isAttempt

/-- Number of interval checks in a trace. -/
def checkCount (tr : List SEv) : Nat := tr.countP isCheck

/-- Number of suspensions in a trace. -/
def sleepCount (tr : List SEv) : Nat := tr.countP isSleep

/-- Index of the first successful submission attempt among the three, if
any. -/
def firstSuccess (submit : Nat → SubmitRes) : Option Nat :=
  if submit 0 = SubmitRes.success then some 0
  else if submit 1 = SubmitRes.success then some 1
  else if submit 2 = SubmitRes.success then some 2
  else none

/-- C3: the submission loop makes at most 3 attempts; it stops right after
the first success (with one 10-second sleep after each of the preceding
failed attempts); when no attempt succeeds it makes exactly 3 attempts with
exactly 2 sleeps (none after the final attempt) and ends in overall failure.
`submit` is quantified over raising outcomes as well, so no exception
escapes the loop. -/
theorem C3_retry_policy (submit : Nat → SubmitRes) (uids : List Nat)
    (ws : List ℝ) :
    attemptCount (submit_go submit uids ws [0, 1, 2]) ≤ 3 ∧
    (∀ k, firstSuccess submit = some k →
      attemptCount (submit_go submit uids ws [0, 1, 2]) = k + 1 ∧
      sleepCount (submit_go submit uids ws [0, 1, 2]) = k ∧
      (submit_go submit uids ws [0, 1, 2]).getLast?
        = some (SEv.submitted uids ws)) ∧
    (firstSuccess submit = none →
      attemptCount (submit_go submit uids ws [0, 1, 2]) = 3 ∧
      sleepCount (submit_go submit uids ws [0, 1, 2]) = 2 ∧
      (submit_go submit uids ws [0, 1, 2]).getLast? = some SEv.failedAll) ∧
    (∀ s : Int, SEv.sleep s ∈ submit_go submit uids ws [0, 1, 2] → s = 10) := by
  cases h0 : submit 0 <;> cases h1 : submit 1 <;> cases h2 : submit 2 <;>
    simp [submit_go, firstSuccess, attemptCount, sleepCount, isAttempt,
      isSleep, h0, h1, h2, List.countP_cons, List.countP_append]

/-- Witness for C3: three failing attempts. -/
theorem C3_retry_policy_witness :
    firstSuccess (fun _ => SubmitRes.failure) = none ∧
      attemptCount (submit_go (fun _ => SubmitRes.failure) [] [] [0, 1, 2]) = 3 ∧
      sleepCount (submit_go (fun _ => SubmitRes.failure) [] [] [0, 1, 2]) = 2 ∧
      (submit_go (fun _ => SubmitRes.failure) [] [] [0, 1, 2]).getLast?
        = some SEv.failedAll :=
  ⟨rfl,
    ((C3_retry_policy (fun _ => SubmitRes.failure) [] []).2.2.1 rfl).1,
    ((C3_retry_policy (fun _ => SubmitRes.failure) [] []).2.2.1 rfl).2.1,
    ((C3_retry_policy (fun _ => SubmitRes.failure) [] []).2.2.1 rfl).2.2⟩

/-- Environment for the C2 counterexample: blocks-since-update stays at 5 on
every query, min interval 20, empty registry and store, all submissions
fail. -/
def envC2 : ChainEnv where
  store := ⟨[], fun _ => [], []⟩
  calcSt := ⟨fun _ => none, fun _ => none⟩
  validatorNodeId := some 1
  blocksSinceUpdate := fun _ => some 5
  minInterval := 20
  submit := fun _ => SubmitRes.failure

/-- C2 counterexample: with `blocks_since_update = 5 < 20 = min_interval`
on every query, the cycle sleeps `(20-5)*12 = 180` seconds once and then
proceeds straight to the submission attempts — the trace contains exactly one
interval check, so the condition is never re-checked after the wait, refuting
the claimed check-sleep loop. -/
theorem C2_counterexample :
    (set_weights envC2).1
      = [SEv.refresh, SEv.checkInterval (some 5) 20, SEv.sleep 180,
         SEv.attempt 0 [] [], SEv.sleep 10, SEv.attempt 1 [] [], SEv.sleep 10,
         SEv.attempt 2 [] [], SEv.failedAll] ∧
    checkCount (set_weights envC2).1 = 1 := by
  constructor <;> rfl

lemma submit_go_all_not_check (submit : Nat → SubmitRes) (uids : List Nat)
    (ws : List ℝ) :
    ∀ (attempts : List Nat) (e : SEv),
      e ∈ submit_go submit uids ws attempts → isCheck e = false
  | [], e, h => by
    rcases List.mem_singleton.mp (by simpa [submit_go] using h) with rfl
    rfl
  | a :: rest, e, h => by
    cases hs : submit a with
    | success =>
      rw [submit_go, hs] at h
      rcases List.mem_cons.mp h with rfl | h'
      · rfl
      · rcases List.mem_singleton.mp h' with rfl
        rfl
    | failure =>
      rw [submit_go, hs] at h
      rcases List.mem_cons.mp h with rfl | h'
      · rfl
      · rcases List.mem_append.mp h' with h'' | h''
        · revert h''
          split <;> intro h''
          · rcases List.mem_singleton.mp h'' with rfl
            rfl
          · simp at h''
        · exact submit_go_all_not_check submit uids ws rest e h''
    | raised =>
      rw [submit_go, hs] at h
      rcases List.mem_cons.mp h with rfl | h'
      · rfl
      · rcases List.mem_append.mp h' with h'' | h''
        · revert h''
          split <;> intro h''
          · rcases List.mem_singleton.mp h'' with rfl
            rfl
          · simp at h''
        · exact submit_go_all_not_check submit uids ws rest e h''

lemma submit_go_no_check (submit : Nat → SubmitRes) (uids : List Nat)
    (ws : List ℝ) (attempts : List Nat) :
    checkCount (submit_go submit uids ws attempts) = 0 :=
  List.countP_eq_zero.mpr (fun e he => by
    simp [submit_go_all_not_check submit uids ws attempts e he])

/-- C2 amended: when `blocks_since_update` is known and below the minimum
interval, the cycle performs its single interval check, suspends once for
exactly `(min_interval - blocks_since_update) * 12` seconds, and then
proceeds to compute and submit without ever re-checking the interval. -/
theorem C2_wait_once_no_recheck (env : ChainEnv) (v : Nat) (b : Int)
    (hv : env.validatorNodeId = some v)
    (hb : env.blocksSinceUpdate 0 = some b)
    (hlt : b < env.minInterval) :
    ∃ rest, (set_weights env).1
        = [SEv.refresh, SEv.checkInterval (some b) env.minInterval,
           SEv.sleep ((env.minInterval - b) * 12)] ++ rest ∧
      checkCount rest = 0 := by
  rw [set_weights, hv]
  simp only [hb, if_pos hlt]
  cases hcalc : calculate_weights env.calcSt (_get_delta_node_data env.store)
      false with
  | error e => exact ⟨[], by simp, rfl⟩
  | ok out =>
    exact ⟨submit_go env.submit out.1 out.2.1 [0, 1, 2],
      by simp, submit_go_no_check env.submit out.1 out.2.1 [0, 1, 2]⟩

/-- Witness for the amended C2 at the concrete environment `envC2`. -/
theorem C2_wait_once_no_recheck_witness :
    envC2.validatorNodeId = some 1 ∧ envC2.blocksSinceUpdate 0 = some 5 ∧
      (5 : Int) < envC2.minInterval ∧
      ∃ rest, (set_weights envC2).1
          = [SEv.refresh, SEv.checkInterval (some 5) envC2.minInterval,
             SEv.sleep ((envC2.minInterval - 5) * 12)] ++ rest ∧
        checkCount rest = 0 :=
  ⟨rfl, rfl, by decide,
    C2_wait_once_no_recheck envC2 1 5 rfl rfl (by decide)⟩

/-- Environment for the C9 counterexample: the validator hotkey is missing
from the metagraph, so the node-id lookup raises `KeyError`. -/
def envC9 : ChainEnv where
  store := ⟨[], fun _ => [], []⟩
  calcSt := ⟨fun _ => none, fun _ => none⟩
  validatorNodeId := none
  blocksSinceUpdate := fun _ => none
  minInterval := 0
  submit := fun _ => SubmitRes.success

/-- C9 counterexample: `set_weights` raises `KeyError` past its own boundary
when the validator hotkey is absent from the metagraph — none of the stages
before the submission loop is guarded by a try/except. -/
theorem C9_counterexample : (set_weights envC9).2 = some PyErr.keyError := rfl

lemma submit_go_attempt_mem (submit : Nat → SubmitRes) (u : List Nat)
    (w : List ℝ) :
    ∀ (attempts : List Nat) (k : Nat) (uids : List Nat) (ws : List ℝ),
      SEv.attempt k uids ws ∈ submit_go submit u w attempts →
        uids = u ∧ ws = w
  | [], k, uids, ws, h => by simp [submit_go] at h
  | a :: rest, k, uids, ws, h => by
    cases hs : submit a with
    | success =>
      rw [submit_go, hs] at h
      rcases List.mem_cons.mp h with heq | h'
      · exact ⟨(SEv.attempt.inj heq).2.1, (SEv.attempt.inj heq).2.2⟩
      · rcases List.mem_singleton.mp h' with heq'
        cases heq'
    | failure =>
      rw [submit_go, hs] at h
      rcases List.mem_cons.mp h with heq | h'
      · exact ⟨(SEv.attempt.inj heq).2.1, (SEv.attempt.inj heq).2.2⟩
      · rcases List.mem_append.mp h' with h'' | h''
        · revert h''
          split <;> intro h'' <;> simp at h''
        · exact submit_go_attempt_mem submit u w rest k uids ws h''
    | raised =>
      rw [submit_go, hs] at h
      rcases List.mem_cons.mp h with heq | h'
      · exact ⟨(SEv.attempt.inj heq).2.1, (SEv.attempt.inj heq).2.2⟩
      · rcases List.mem_append.mp h' with h'' | h''
        · revert h''
          split <;> intro h'' <;> simp at h''
        · exact submit_go_attempt_mem submit u w rest k uids ws h''

/-- C9 amended: an exception escapes `set_weights` only from the stages
before the submission loop (validator lookup, delta computation, weight
calculation); whenever an exception escapes, no submission attempt has been
made, and every submission attempt carries exactly the complete weight
vector produced by the calculation — never a partial one. -/
theorem C9_no_partial_submission (env : ChainEnv) :
    ((set_weights env).2 ≠ none → attemptCount (set_weights env).1 = 0) ∧
    (∀ k uids ws, SEv.attempt k uids ws ∈ (set_weights env).1 →
      ∃ evs, calculate_weights env.calcSt (_get_delta_node_data env.store)
          false = .ok (uids, ws, evs)) := by
  cases hv : env.validatorNodeId with
  | none =>
    constructor
    · intro _
      rw [set_weights, hv]
      rfl
    · intro k uids ws h
      rw [set_weights, hv] at h
      simp at h
  | some v =>
    cases hcalc : calculate_weights env.calcSt (_get_delta_node_data env.store)
        false with
    | error e =>
      constructor
      · intro _
        rw [set_weights, hv]
        simp only [hcalc]
        cases hb : env.blocksSinceUpdate 0 with
        | none => rfl
        | some b =>
          by_cases hlt : b < env.minInterval <;>
            simp [attemptCount, isAttempt, List.countP_cons,
              List.countP_append, hlt]
      · intro k uids ws h
        rw [set_weights, hv] at h
        simp only [hcalc] at h
        cases hb : env.blocksSinceUpdate 0 with
        | none =>
          rw [hb] at h
          simp at h
        | some b =>
          rw [hb] at h
          revert h
          split <;> intro h <;> simp at h
    | ok out =>
      constructor
      · intro hcon
        exfalso
        apply hcon
        rw [set_weights, hv]
        simp only [hcalc]
      · intro k uids ws h
        rw [set_weights, hv] at h
        simp only [hcalc] at h
        have hmem : SEv.attempt k uids ws
            ∈ submit_go env.submit out.1 out.2.1 [0, 1, 2] := by
          rcases List.mem_append.mp h with h' | h'
          · exfalso
            rcases List.mem_append.mp h' with h'' | h''
            · simp at h''
            · revert h''
              cases env.blocksSinceUpdate 0 with
              | none => intro h''; simp at h''
              | some b => split <;> intro h'' <;> simp at h''
          · exact h'
        obtain ⟨h1, h2⟩ := submit_go_attempt_mem env.submit out.1 out.2.1
          [0, 1, 2] k uids ws hmem
        refine ⟨out.2.2, ?_⟩
        rw [h1, h2]

/-- Witness for the amended C9 at the concrete environment `envC9`. -/
theorem C9_no_partial_submission_witness :
    (set_weights envC9).2 ≠ none ∧ attemptCount (set_weights envC9).1 = 0 :=
  ⟨by decide, (C9_no_partial_submission envC9).1 (by decide)⟩

end Subnet42
